import Mathlib

/-!
A shallow embedding of the Functional-Tetris game engine
(`src/constants.ts` utility/constant sections and the state-processing
module exporting `initialState`, `Move`, `Tick`, `Hold`, `Drop`,
`Collision`, `Rotate`).

Conventions of the embedding:
* JavaScript numbers that the program uses as integers (pixel
  coordinates, counters, seeds, scores) are modelled as `Int` / `Nat`.
  The JS remainder operator `%` is `Int.tmod`, and `Math.floor` of an
  exact division is `Int.fdiv`.
* A runtime `TypeError` (dereferencing `undefined`, e.g. through the
  non-null assertion `!` on an absent optional field, or indexing past
  the end of an array and then reading a property) is modelled by
  `Option`: a transition that would throw returns `none`.
* JS array operations map to `List` operations: `filter`/`map` keep
  their names, `reduce` is a left fold, indexing is `List.get?`.
-/

namespace Tetris

/-- `Viewport.CANVAS_WIDTH` -/
def canvasWidth : Int := 200

/-- `Viewport.CANVAS_HEIGHT` -/
def canvasHeight : Int := 400

/-- `Viewport.PREVIEW_WIDTH` -/
def previewWidth : Int := 160

/-- `Viewport.PREVIEW_HEIGHT` -/
def previewHeight : Int := 80

/-- `Constants.GRID_WIDTH` -/
def gridWidth : Nat := 10

/-- `Block.WIDTH = CANVAS_WIDTH / GRID_WIDTH = 20` -/
def blockWidth : Int := 20

/-- `Block.HEIGHT = CANVAS_HEIGHT / GRID_HEIGHT = 20` -/
def blockHeight : Int := 20

/-- The seven tetromino shape letters (`ShapeLetters`). -/
inductive ShapeLetters where
  | I | T | J | L | O | S | Z
deriving DecidableEq, Repr

/-- The `"x" | "y"` direction tag used by the movement helpers. -/
inductive Dir where
  | x | y
deriving DecidableEq, Repr

/-- An `(x, y)` entry of the rotation / wall-kick tables
(`PieceStartLocation`). -/
structure Pos where
  x : Int
  y : Int
deriving DecidableEq, Repr

/-- A unit grid square (`Cell`). -/
structure Cell where
  x : Int
  y : Int
  width : Int
  height : Int
  id : String
  color : String
deriving DecidableEq, Repr

/-- A tetromino instance (`Tetro`).  `originBlock` is typed `Cell` in the
source but can hold `undefined` at runtime (it is assigned from an array
index), hence `Option Cell` here. -/
structure Tetro where
  cells : List Cell
  originBlock : Option Cell
  collided : Bool
  rotation : Nat
  shape : ShapeLetters
  seed : Int
  blockStartCount : Nat
deriving DecidableEq, Repr

/-- The game-state snapshot (`State`). -/
structure State where
  currentBlock : Option Tetro
  blocks : List Cell
  nextBlock : Option Tetro
  heldBlock : Option Tetro
  ghostBlock : Option Tetro
  blockCount : Nat
  lineClears : Nat
  level : Nat
  points : Nat
  highscore : Nat
  clearedBlocks : List Cell
  gameEnd : Bool
  seed : Int
  canHoldAgain : Bool
  changeInLevel : Bool
deriving DecidableEq, Repr

/-- `TetroShapes` -/
def TetroShapes : List ShapeLetters := [.I, .T, .J, .L, .O, .S, .Z]

/-- `TetroColorMap` -/
def TetroColorMap : ShapeLetters → String
  | .I => "cyan"
  | .T => "purple"
  | .J => "blue"
  | .L => "orange"
  | .O => "yellow"
  | .S => "lime"
  | .Z => "red"

/-- `TetroStartPosMap`: for each shape the list of rotation states, each a
list of four offsets from the pivot. -/
def TetroStartPosMap : ShapeLetters → List (List Pos)
  | .I => [[⟨-1, 0⟩, ⟨0, 0⟩, ⟨1, 0⟩, ⟨2, 0⟩],
           [⟨1, -1⟩, ⟨1, 0⟩, ⟨1, 1⟩, ⟨1, 2⟩],
           [⟨2, 1⟩, ⟨1, 1⟩, ⟨0, 1⟩, ⟨-1, 1⟩],
           [⟨0, 2⟩, ⟨0, 1⟩, ⟨0, 0⟩, ⟨0, -1⟩]]
  | .T => [[⟨-1, 0⟩, ⟨0, 0⟩, ⟨0, -1⟩, ⟨1, 0⟩],
           [⟨0, -1⟩, ⟨0, 0⟩, ⟨1, 0⟩, ⟨0, 1⟩],
           [⟨1, 0⟩, ⟨0, 0⟩, ⟨0, 1⟩, ⟨-1, 0⟩],
           [⟨0, 1⟩, ⟨0, 0⟩, ⟨-1, 0⟩, ⟨0, -1⟩]]
  | .S => [[⟨-1, 0⟩, ⟨0, 0⟩, ⟨0, -1⟩, ⟨1, -1⟩],
           [⟨0, -1⟩, ⟨0, 0⟩, ⟨1, 0⟩, ⟨1, 1⟩],
           [⟨1, 0⟩, ⟨0, 0⟩, ⟨0, 1⟩, ⟨-1, 1⟩],
           [⟨0, 1⟩, ⟨0, 0⟩, ⟨-1, 0⟩, ⟨-1, -1⟩]]
  | .Z => [[⟨-1, -1⟩, ⟨0, 0⟩, ⟨0, -1⟩, ⟨1, 0⟩],
           [⟨1, -1⟩, ⟨0, 0⟩, ⟨1, 0⟩, ⟨0, 1⟩],
           [⟨1, 1⟩, ⟨0, 0⟩, ⟨0, 1⟩, ⟨-1, 0⟩],
           [⟨-1, 1⟩, ⟨0, 0⟩, ⟨-1, 0⟩, ⟨0, -1⟩]]
  | .O => [[⟨0, -1⟩, ⟨0, 0⟩, ⟨1, -1⟩, ⟨1, 0⟩]]
  | .J => [[⟨-1, -1⟩, ⟨0, 0⟩, ⟨-1, 0⟩, ⟨1, 0⟩],
           [⟨1, -1⟩, ⟨0, 0⟩, ⟨0, -1⟩, ⟨0, 1⟩],
           [⟨1, 1⟩, ⟨0, 0⟩, ⟨1, 0⟩, ⟨-1, 0⟩],
           [⟨-1, 1⟩, ⟨0, 0⟩, ⟨0, 1⟩, ⟨0, -1⟩]]
  | .L => [[⟨1, -1⟩, ⟨0, 0⟩, ⟨-1, 0⟩, ⟨1, 0⟩],
           [⟨1, 1⟩, ⟨0, 0⟩, ⟨0, -1⟩, ⟨0, 1⟩],
           [⟨-1, 1⟩, ⟨0, 0⟩, ⟨1, 0⟩, ⟨-1, 0⟩],
           [⟨-1, -1⟩, ⟨0, 0⟩, ⟨0, 1⟩, ⟨0, -1⟩]]

/-- `JLTSZWallKickData` -/
def JLTSZWallKickData : List (List Pos) :=
  [[⟨0, 0⟩, ⟨-1, 0⟩, ⟨-1, -1⟩, ⟨0, 2⟩, ⟨-1, 2⟩],
   [⟨0, 0⟩, ⟨-1, 0⟩, ⟨-1, 1⟩, ⟨0, -2⟩, ⟨-1, -2⟩],
   [⟨0, 0⟩, ⟨1, 0⟩, ⟨1, -1⟩, ⟨0, 2⟩, ⟨1, 2⟩],
   [⟨0, 0⟩, ⟨1, 0⟩, ⟨1, 1⟩, ⟨0, -2⟩, ⟨1, -2⟩]]

/-- `IWallKickData` -/
def IWallKickData : List (List Pos) :=
  [[⟨0, 0⟩, ⟨1, 0⟩, ⟨-2, 0⟩, ⟨1, -2⟩, ⟨-2, 1⟩],
   [⟨0, 0⟩, ⟨-2, 0⟩, ⟨1, 0⟩, ⟨-2, -1⟩, ⟨1, 2⟩],
   [⟨0, 0⟩, ⟨-1, 0⟩, ⟨2, 0⟩, ⟨-1, 2⟩, ⟨2, -1⟩],
   [⟨0, 0⟩, ⟨2, 0⟩, ⟨-1, 0⟩, ⟨2, 1⟩, ⟨-1, -2⟩]]

/-- `OWallKickData` -/
def OWallKickData : List (List Pos) := [[⟨0, 0⟩]]

/-- `PieceWallKickMap` -/
def PieceWallKickMap : ShapeLetters → List (List Pos)
  | .I => IWallKickData
  | .J => JLTSZWallKickData
  | .L => JLTSZWallKickData
  | .O => OWallKickData
  | .S => JLTSZWallKickData
  | .T => JLTSZWallKickData
  | .Z => JLTSZWallKickData

namespace RNG

/-- `RNG.m = 0x80000000 = 2^31` -/
def m : Int := 2147483648

/-- `RNG.hash = (seed) => (RNG.a * seed + RNG.c) % RNG.m` with
`a = 1103515245`, `c = 12345`. -/
def hash (seed : Int) : Int := (1103515245 * seed + 12345).tmod m

/-- `RNG.scale = (hash) => Math.floor((hash / (RNG.m - 1)) * 7)`,
written with exact floor division. -/
def scale (h : Int) : Int := Int.fdiv (h * 7) (m - 1)

end RNG

/-- JS array indexing `l[i]` on a possibly out-of-range or negative index:
`undefined` is `none`. -/
def listGetI {α : Type} (l : List α) (i : Int) : Option α :=
  if i < 0 then none else l.get? i.toNat

/-- A JS `array.map((elem, index) => ...)` whose callback can throw
(dereference `undefined`); the index-aware monadic map. -/
def mapIdxOpt {α β : Type} (f : Nat → α → Option β) : Nat → List α → Option (List β)
  | _, [] => some []
  | i, a :: t =>
    match f i a with
    | none => none
    | some b =>
      match mapIdxOpt f (i + 1) t with
      | none => none
      | some rest => some (b :: rest)

/-- `createBlock` -/
def createBlock (x y : Int) (blockId : String) (color : String) : Cell :=
  { x := x, y := y, width := blockWidth, height := blockHeight, id := blockId, color := color }

/-- `hasBlocksAround`: true when not every cell, shifted by `offset`
along `direction`, misses all committed blocks. -/
def hasBlocksAround (cells : List Cell) (s : State) (offset : Int) (direction : Dir) : Bool :=
  (cells.filter (fun c =>
    (s.blocks.filter (fun b =>
      b.x == (if direction = .x then c.x + offset else c.x) &&
      b.y == (if direction = .y then c.y + offset else c.y))).length == 0)).length
    != cells.length

/-- `hasBoundaryAround`: true when not every cell, shifted by `offset`
along `direction`, satisfies the boundary condition. -/
def hasBoundaryAround (cells : List Cell) (_s : State) (offset : Int) (direction : Dir) : Bool :=
  (cells.filter (fun c =>
    if direction = .x then
      decide (c.x + offset > 0 - blockWidth) && decide (c.x + offset < canvasWidth)
    else
      decide (c.y + offset < canvasHeight))).length
    != cells.length

/-- `boundaryX` -/
def boundaryX (cells : List Cell) (s : State) (offset : Int) : List Cell :=
  match s.currentBlock with
  | none => cells
  | some cb =>
    if cb.collided then cells
    else
      let hasBlocksBeside := hasBlocksAround cells s offset .x
      let hasBoundaryBeside := hasBoundaryAround cells s offset .x
      if hasBlocksBeside || hasBoundaryBeside then cells
      else cells.map (fun c => { c with x := c.x + offset })

/-- `boundaryY` -/
def boundaryY (cells : List Cell) (s : State) (offset : Int) : List Cell :=
  match s.currentBlock with
  | none => cells
  | some cb =>
    if cb.collided then cells
    else
      let hasBlocksBelow := hasBlocksAround cells s offset .y
      let hasBoundaryBelow := hasBoundaryAround cells s offset .y
      if hasBlocksBelow || hasBoundaryBelow then cells
      else cells.map (fun c => { c with y := c.y + offset })

/-- `itemCollided` inside `collisionDetection`. -/
def itemCollided (p q : Int × Int) : Bool :=
  p.1 == q.1 && p.2 == q.2 - blockHeight

/-- The `collisionCondition` of `collisionDetection`:
`blockAndBoundaryCollided || blockAndBlocksCollided`. -/
def collisionCond (s : State) (cb : Tetro) : Bool :=
  decide (0 < (cb.cells.filter (fun c => itemCollided (c.x, c.y) (c.x, canvasHeight))).length)
  || decide (0 < (cb.cells.filter (fun c =>
      decide (0 < (s.blocks.filter (fun b => itemCollided (c.x, c.y) (b.x, b.y))).length))).length)

/-- `collisionDetection`: dereferences `s.currentBlock!`, so it throws
(`none`) when there is no current block. -/
def collisionDetection (s : State) : Option State :=
  match s.currentBlock with
  | none => none
  | some cb =>
    let collisionCondition := collisionCond s cb
    some { s with
      currentBlock := some { cb with collided := collisionCondition },
      blocks := if collisionCondition then s.blocks ++ cb.cells else s.blocks,
      seed := if collisionCondition then RNG.hash s.seed else s.seed,
      canHoldAgain := if collisionCondition then true else s.canHoldAgain }

/-- Number of committed cells in row `y` (the inner count of
`lineClearCheck`). -/
def countAtY (blocks : List Cell) (y : Int) : Nat :=
  (blocks.filter (fun b => b.y == y)).length

/-- `tetroBlockMakingLine` of `lineClearCheck`. -/
def fullLineCells (s : State) (block : Tetro) : List Cell :=
  block.cells.filter (fun c => countAtY s.blocks c.y == gridWidth)

/-- One step of the `reduce` of `lineClearCheck` that keeps only the
first cell of each distinct `y`. -/
def dedupStep (acc : List Cell) (cell : Cell) : List Cell :=
  if decide (0 < (acc.filter (fun a => a.y == cell.y)).length) then acc
  else acc ++ [cell]

/-- The `reduce` of `lineClearCheck` that keeps only the first cell of
each distinct `y` (`blockMakingFullLine`). -/
def dedupByY (l : List Cell) : List Cell :=
  l.foldl dedupStep []

/-- `AllBlockInFullLine` of `lineClearCheck`. -/
def blocksInFullLines (blocks : List Cell) (fullLine : List Cell) : List Cell :=
  blocks.filter (fun b => decide (0 < (fullLine.filter (fun a => b.y == a.y)).length))

/-- `lineClearCheck` -/
def lineClearCheck (state : State) : State :=
  match state.currentBlock with
  | none => { state with changeInLevel := false }
  | some block =>
    if !block.collided then { state with changeInLevel := false }
    else
      let blockMakingFullLine := dedupByY (fullLineCells state block)
      let AllBlockInFullLine := blocksInFullLines state.blocks blockMakingFullLine
      if AllBlockInFullLine.length == 0 then { state with changeInLevel := false }
      else
        let blocksAbove :=
          (((state.blocks.filter (fun b =>
              decide (0 < (blockMakingFullLine.filter (fun a => b.y < a.y)).length))).foldl
            (fun acc b =>
              if decide (0 < (blockMakingFullLine.filter (fun a => a.y == b.y)).length) then acc
              else acc ++ [b]) []).map
            (fun b =>
              let lineClearNoBelow := (blockMakingFullLine.filter (fun a => b.y < a.y)).length
              { b with y := b.y + lineClearNoBelow * blockHeight }))
        let blocksBelow :=
          (state.blocks.filter (fun b =>
              decide (0 < (blockMakingFullLine.filter (fun a => b.y > a.y)).length))).foldl
            (fun acc b =>
              if decide (0 < (blockMakingFullLine.filter (fun a => a.y == b.y)).length)
                  || decide (0 < (blocksAbove.filter (fun a2 => b.id == a2.id)).length) then acc
              else acc ++ [b]) []
        let noOfLinesCleared := AllBlockInFullLine.length / gridWidth
        let points := state.points + noOfLinesCleared * 100
        let level := (state.lineClears + noOfLinesCleared) / 10
        let changeInLevel := state.level != level
        { state with
          blocks := blocksAbove ++ blocksBelow,
          lineClears := state.lineClears + noOfLinesCleared,
          points := points,
          clearedBlocks := AllBlockInFullLine,
          highscore := if state.highscore < points then points else state.highscore,
          level := level,
          changeInLevel := changeInLevel }

/-- `initialState`, with the wall-clock-derived `initialSeed` made an
explicit parameter (the engine is pure given the seed). -/
def initState (seed : Int) : State :=
  { currentBlock := none, blocks := [], nextBlock := none, heldBlock := none,
    ghostBlock := none, blockCount := 0, lineClears := 0, level := 0, points := 0,
    highscore := 0, clearedBlocks := [], gameEnd := false, seed := seed,
    canHoldAgain := true, changeInLevel := false }

/-- `Tick.createTetrominoes`.  `TetroShapes[randomNumber]` is `undefined`
when `scale seed` falls outside `[0, 7)`, and the subsequent lookup in
`TetroStartPosMap` then throws, hence the `Option`. -/
def createTetrominoes (x y : Int) (blockCount : Nat) (seed : Int) (isPreview : Bool)
    (state : State) : Option Tetro := do
  let randomNumber := RNG.scale seed
  let chosenShape ← listGetI TetroShapes randomNumber
  let shapeMap ← (TetroStartPosMap chosenShape).get? 0
  let tetroColor := TetroColorMap chosenShape
  let startPosX := x
  let checkValidBlockSpawn :=
    (shapeMap.filter (fun p =>
      let posX := startPosX + p.x * blockWidth
      let posY := blockHeight + p.y * blockHeight
      (state.blocks.filter (fun b => b.x == posX && b.y == posY)).length == 0)).length == 4
  let startPosY := if checkValidBlockSpawn || isPreview then y else 0
  let tetro := shapeMap.enum.map (fun ip =>
    createBlock (startPosX + ip.2.x * blockWidth) (startPosY + ip.2.y * blockHeight)
      ("block " ++ toString (blockCount + ip.1)) tetroColor)
  let findPivot := (tetro.filter (fun c => c.x == startPosX && c.y == startPosY)).head?
  pure { cells := tetro, originBlock := findPivot, collided := false, rotation := 0,
         shape := chosenShape, seed := seed, blockStartCount := blockCount }

/-- The `mapGhostTetro` helper inside `Tick.perform`; indexes into
`block.cells`, throwing when the index is out of range. -/
def mapGhostTetro (cells : List Cell) (block : Tetro) (offset : Int) : Option (List Cell) :=
  mapIdxOpt (fun i c =>
    (block.cells.get? i).map (fun bc =>
      { c with x := bc.x, y := bc.y + offset, color := "grey" })) 0 cells

/-- `Tick.perform`.  `Math.min(...)` over the per-cell ghost candidates is
the fold of `min` over the (nonempty) list; when the current block has no
cells the source dereferences `block.cells[0]` of an empty array a few
lines later, which the empty-list branch models. -/
def tickPerform (s : State) : Option State := do
  let state := lineClearCheck s
  let blockOpt : Option Tetro :=
    match state.currentBlock with
    | none => createTetrominoes (canvasWidth / 2 - blockWidth) blockHeight
        state.blockCount state.seed false state
    | some cb =>
      if cb.collided then
        createTetrominoes (canvasWidth / 2 - blockWidth) blockHeight
          state.blockCount state.seed false state
      else some cb
  let block ← blockOpt
  let ghostBlockYLocation := block.cells.map (fun c =>
    (state.blocks.foldl (fun acc b =>
      if c.x == b.x && decide (b.y < acc) && decide (b.y > c.y) then b.y else acc)
      canvasHeight) - blockHeight)
  let getMinYOpt : Option Int :=
    match ghostBlockYLocation with
    | [] => none
    | h :: t => some (t.foldl min h)
  let getMinY ← getMinYOpt
  let getIndexOfLocation := ghostBlockYLocation.enum.foldl
    (fun (acc : List Nat) iv => if iv.2 == getMinY then acc ++ [iv.1] else acc) []
  let yValueIndex ← getIndexOfLocation.foldlM
    (fun (acc : Nat × Int) val =>
      (block.cells.get? val).map (fun c => if decide (acc.2 > c.y) then acc else (val, c.y)))
    ((0 : Nat), (0 : Int))
  let lowCell ← block.cells.get? yValueIndex.1
  let yOffset := getMinY - lowCell.y
  let ghostTetroBlockCount :=
    match state.ghostBlock with
    | some g => g.blockStartCount
    | none => state.blockCount + 4
  let ghostTetro ← createTetrominoes 0 0 ghostTetroBlockCount block.seed true state
  let ghostCells ← mapGhostTetro ghostTetro.cells block yOffset
  let ghostFinal ←
    if hasBlocksAround ghostCells s 0 .x || hasBoundaryAround ghostCells s 0 .y then
      mapGhostTetro ghostCells block (yOffset - blockHeight)
    else pure ghostCells
  let ghostBlock := { ghostTetro with cells := ghostFinal }
  let isBlockSpawningOnOtherBlocks :=
    decide (0 < (block.cells.filter (fun c =>
      decide (0 < (state.blocks.filter (fun b => c.x == b.x && c.y == b.y)).length))).length)
  let nextTetroBlockCount :=
    match state.ghostBlock with
    | some _ => state.blockCount + 4
    | none => state.blockCount + 8
  let nextBlockOpt : Option Tetro :=
    match state.nextBlock with
    | none => createTetrominoes (previewWidth / 2) (previewHeight / 2)
        nextTetroBlockCount (RNG.hash state.seed) true state
    | some nb =>
      match state.currentBlock with
      | none => none
      | some cb =>
        if cb.collided then
          createTetrominoes (previewWidth / 2) (previewHeight / 2)
            nextTetroBlockCount (RNG.hash state.seed) true state
        else some nb
  let nextBlock ← nextBlockOpt
  let blockCount :=
    match state.currentBlock with
    | none =>
      match state.ghostBlock with
      | some _ => state.blockCount + 4
      | none => state.blockCount + 8
    | some cb =>
      if cb.collided then
        match state.ghostBlock with
        | some _ => state.blockCount + 4
        | none => state.blockCount + 8
      else state.blockCount
  pure { state with
    currentBlock := some block,
    nextBlock := some nextBlock,
    ghostBlock := some ghostBlock,
    blockCount := blockCount,
    gameEnd := isBlockSpawningOnOtherBlocks }

/-- `Rotate.perform` -/
def rotatePerform (s : State) : Option State :=
  match s.currentBlock with
  | none => some s
  | some cb =>
    let currentRotation := (cb.rotation + 1) % (TetroStartPosMap cb.shape).length
    ((TetroStartPosMap cb.shape).get? currentRotation).bind (fun getRotationMap =>
    ((TetroStartPosMap cb.shape).get? cb.rotation).bind (fun getPreviousRotationBlock =>
    (getPreviousRotationBlock.get? 1).bind (fun prevPivot =>
    (mapIdxOpt (fun i c =>
      cb.originBlock.bind (fun centralRotationBlock =>
        (getRotationMap.get? i).bind (fun blockRotation =>
          some (createBlock
            (centralRotationBlock.x + (blockRotation.x + (0 - prevPivot.x)) * blockWidth)
            (centralRotationBlock.y + (blockRotation.y + (0 - prevPivot.y)) * blockHeight)
            c.id c.color)))) 0 cb.cells).bind (fun blockAfterRotation =>
    let checkAllCollision := fun (cells : List Cell) =>
      hasBlocksAround cells s 0 .x || hasBoundaryAround cells s 0 .x ||
        hasBoundaryAround cells s 0 .y
    if !checkAllCollision blockAfterRotation then
      some { s with currentBlock := some { cb with
        rotation := currentRotation,
        cells := blockAfterRotation,
        originBlock := blockAfterRotation.get? 1 } }
    else
      ((PieceWallKickMap cb.shape).get? currentRotation).bind (fun kickRow =>
      match kickRow.filter (fun p =>
        !checkAllCollision (blockAfterRotation.map (fun c =>
          { c with x := c.x + p.x * blockWidth, y := c.y + (0 - p.y) * blockHeight }))) with
      | [] => some s
      | getFirstPossibleWallKick :: _ =>
        let blockAfterWallKick := blockAfterRotation.map (fun c =>
          { c with x := c.x + getFirstPossibleWallKick.x * blockWidth,
                   y := c.y + (0 - getFirstPossibleWallKick.y) * blockHeight })
        some { s with currentBlock := some { cb with
          rotation := currentRotation,
          cells := blockAfterWallKick,
          originBlock := blockAfterWallKick.get? 1 } })))))

/-- `Move.perform` -/
def movePerform (direction : Dir) (offset : Int) (s : State) : State :=
  match s.currentBlock with
  | none => s
  | some cb =>
    let updatedCells :=
      match direction with
      | .x => boundaryX cb.cells s offset
      | .y => boundaryY cb.cells s offset
    { s with currentBlock := some { cb with
        cells := updatedCells,
        originBlock := updatedCells.get? 1 } }

/-- `Hold.perform`.  When no block is held the source dereferences
`s.nextBlock!`, throwing if the preview is absent. -/
def holdPerform (s : State) : Option State :=
  match s.currentBlock with
  | none => some s
  | some cb =>
    if cb.collided || !s.canHoldAgain then some s
    else
      let currentBlockOpt : Option Tetro :=
        match s.heldBlock with
        | some hb =>
          createTetrominoes (canvasWidth / 2 - blockWidth) blockHeight
            hb.blockStartCount hb.seed false s
        | none =>
          s.nextBlock.bind (fun nb =>
            createTetrominoes (canvasWidth / 2 - blockWidth) blockHeight
              nb.blockStartCount nb.seed false s)
      let nextBlockOpt : Option (Option Tetro) :=
        match s.heldBlock with
        | some _ => some s.nextBlock
        | none =>
          (createTetrominoes (previewWidth / 2) (previewHeight / 2)
            (s.blockCount + 4) (RNG.hash (RNG.hash s.seed)) true s).map some
      currentBlockOpt.bind (fun currentBlock =>
      nextBlockOpt.bind (fun nextBlock =>
      (createTetrominoes (previewWidth / 2) (previewHeight / 2)
        cb.blockStartCount cb.seed true s).bind (fun heldBlock =>
      some { s with
        currentBlock := some currentBlock,
        nextBlock := nextBlock,
        heldBlock := some heldBlock,
        blockCount := if s.heldBlock.isSome then s.blockCount else s.blockCount + 4,
        seed := if s.heldBlock.isSome then s.seed else RNG.hash s.seed,
        canHoldAgain := false })))

/-- `Drop.perform`.  Dereferences `s.ghostBlock!.cells[index]` for each
cell of the live current block. -/
def dropPerform (s : State) : Option State :=
  match s.currentBlock with
  | none => some s
  | some cb =>
    if cb.collided then some s
    else
      (mapIdxOpt (fun i c =>
        s.ghostBlock.bind (fun g =>
          (g.cells.get? i).bind (fun gc =>
            some { c with x := gc.x, y := gc.y }))) 0 cb.cells).bind (fun droppedCell =>
      some { s with
        currentBlock := some { cb with cells := droppedCell, collided := true },
        canHoldAgain := true,
        blocks := s.blocks ++ droppedCell,
        seed := RNG.hash s.seed })

/-- The closed set of engine Actions (`Move`, `Tick`, `Rotate`, `Hold`,
`Drop`, `Collision`); the `Tick` time payload is carried but, as in the
source, unused by `perform`. -/
inductive Action where
  | move (direction : Dir) (offset : Int)
  | tick (time : Int)
  | rotate
  | hold
  | drop
  | collision
deriving DecidableEq, Repr

/-- `Action.perform`: dispatch one action on a snapshot. -/
def step (a : Action) (s : State) : Option State :=
  match a with
  | .move d off => some (movePerform d off s)
  | .tick _ => tickPerform s
  | .rotate => rotatePerform s
  | .hold => holdPerform s
  | .drop => dropPerform s
  | .collision => collisionDetection s

/-- Folding a finite Action sequence over a snapshot, left to right; a
thrown transition aborts the run. -/
def run (acts : List Action) (s : State) : Option State :=
  acts.foldlM (fun st a => step a st) s

/-! ## Specification-level predicates and concrete states -/

/-- The `(x, y)` position of a cell. -/
def posOf (c : Cell) : Int × Int := (c.x, c.y)

/-- No two cells of the list share an `(x, y)` position. -/
def PosNodup (l : List Cell) : Prop := (l.map posOf).Nodup

instance (l : List Cell) : Decidable (PosNodup l) := by
  unfold PosNodup; exact List.nodupDecidable _

/-- No cell of `l1` shares an `(x, y)` position with a cell of `l2`. -/
def PosDisjoint (l1 l2 : List Cell) : Prop :=
  List.Disjoint (l1.map posOf) (l2.map posOf)

instance (l1 l2 : List Cell) : Decidable (PosDisjoint l1 l2) := by
  unfold PosDisjoint List.Disjoint; infer_instance

/-- Shifting one cell by `offset` along `direction`. -/
def shiftCell (direction : Dir) (offset : Int) (c : Cell) : Cell :=
  match direction with
  | .x => { c with x := c.x + offset }
  | .y => { c with y := c.y + offset }

/-- The shifted cell violates the boundary condition of the given axis:
for `x` the shifted coordinate must lie strictly between `-blockWidth`
and `canvasWidth`, for `y` strictly below `canvasHeight`. -/
def outsideBoundary (direction : Dir) (offset : Int) (c : Cell) : Prop :=
  match direction with
  | .x => ¬(0 - blockWidth < c.x + offset ∧ c.x + offset < canvasWidth)
  | .y => ¬(c.y + offset < canvasHeight)

instance (d : Dir) (off : Int) (c : Cell) : Decidable (outsideBoundary d off c) := by
  unfold outsideBoundary; cases d <;> infer_instance

/-- Some cell of the current block, shifted by the Move offset, lands on
an occupied position or outside the boundary. -/
def moveBlocked (s : State) (direction : Dir) (offset : Int) (cells : List Cell) : Prop :=
  ∃ c ∈ cells,
    (∃ b ∈ s.blocks, (shiftCell direction offset c).x = b.x ∧
      (shiftCell direction offset c).y = b.y) ∨ outsideBoundary direction offset c

instance (s : State) (d : Dir) (off : Int) (cells : List Cell) :
    Decidable (moveBlocked s d off cells) := by
  unfold moveBlocked; infer_instance

/-- A cell passes the rotation checks as applied with offset `0`: it
overlaps no committed block, lies strictly inside the `x` bounds, and
strictly above the floor. -/
def cellAdmissible (s : State) (c : Cell) : Prop :=
  (∀ b ∈ s.blocks, ¬(b.x = c.x ∧ b.y = c.y)) ∧
    (0 - blockWidth < c.x ∧ c.x < canvasWidth) ∧ c.y < canvasHeight

instance (s : State) (c : Cell) : Decidable (cellAdmissible s c) := by
  unfold cellAdmissible; infer_instance

/-- Every cell of the candidate placement is admissible. -/
def cellsAdmissible (s : State) (cells : List Cell) : Prop :=
  ∀ c ∈ cells, cellAdmissible s c

instance (s : State) (cells : List Cell) : Decidable (cellsAdmissible s cells) := by
  unfold cellsAdmissible; infer_instance

/-- Applying a wall-kick table entry: its `x` offset is added to the cell
`x`, its negated `y` offset to the cell `y` (in block units). -/
def kickShift (p : Pos) (cells : List Cell) : List Cell :=
  cells.map (fun c =>
    { c with x := c.x + p.x * blockWidth, y := c.y + (0 - p.y) * blockHeight })

/-- The next rotation index: `(rotation + 1)` modulo the number of
rotation states of the shape. -/
def nextRotationIdx (cb : Tetro) : Nat :=
  (cb.rotation + 1) % (TetroStartPosMap cb.shape).length

/-- The naively rotated cells: the next rotation state's offsets, applied
around the pivot cell `o` after re-centering by the previous rotation
state's pivot entry (index 1). -/
def naiveRotatedCells (cb : Tetro) (o : Cell) : List Cell :=
  let rm := (TetroStartPosMap cb.shape).getD (nextRotationIdx cb) []
  let prev := ((TetroStartPosMap cb.shape).getD cb.rotation []).getD 1 ⟨0, 0⟩
  List.zipWith (fun c p =>
    createBlock (o.x + (p.x + (0 - prev.x)) * blockWidth)
      (o.y + (p.y + (0 - prev.y)) * blockHeight) c.id c.color) cb.cells rm

/-- The Action trace of the C1 counterexample: spawn a piece, soft-drop it
to the floor, then let the collision check fire twice in a row. -/
def cexActs : List Action :=
  [.tick 0] ++ List.replicate 18 (.move .y 20) ++ [.collision, .collision]

/-- Shorthand for a concrete cell with the id scheme of `createBlock`. -/
def mkCell (x y : Int) (i : Nat) : Cell :=
  createBlock x y ("block " ++ toString i) "purple"

/-- A settled (collided) T piece sitting at pivot `(100, 200)`. -/
def tetT : Tetro :=
  { cells := [mkCell 80 200 0, mkCell 100 200 1, mkCell 100 180 2, mkCell 120 200 3],
    originBlock := some (mkCell 100 200 1), collided := true, rotation := 0,
    shape := .T, seed := 0, blockStartCount := 0 }

/-- A state whose current block has already collided and been merged: its
cells appear in `blocks` verbatim. -/
def s10 : State := { initState 0 with currentBlock := some tetT, blocks := tetT.cells }

/-- The cells produced by rotating `tetT` in `s10`: the naive rotation is
blocked by the merged copies, and wall-kick `(0, -2)` applies. -/
def tetTRotated : List Cell :=
  [mkCell 100 220 0, mkCell 100 240 1, mkCell 120 240 2, mkCell 100 260 3]

/-- A live I piece whose leftmost cell sits at the minimum boundary `x = 0`. -/
def tetI : Tetro :=
  { cells := [mkCell 0 100 0, mkCell 20 100 1, mkCell 40 100 2, mkCell 60 100 3],
    originBlock := some (mkCell 20 100 1), collided := false, rotation := 0,
    shape := .I, seed := 0, blockStartCount := 0 }

/-- A state with the live block `tetI` and empty board. -/
def s6 : State := { initState 0 with currentBlock := some tetI }

/-- Ten committed cells filling row `y = 380`. -/
def rowCells : List Cell :=
  (List.range gridWidth).map (fun i => mkCell ((20 : Int) * Int.ofNat i) 380 i)

/-- A collided piece whose four cells are the left part of row `y = 380`. -/
def tet5 : Tetro :=
  { cells := (List.range 4).map (fun i => mkCell ((20 : Int) * Int.ofNat i) 380 i),
    originBlock := some (mkCell 20 380 1), collided := true, rotation := 0,
    shape := .I, seed := 0, blockStartCount := 0 }

/-- A state in which row `y = 380` is complete (the collided current
block's cells are among the committed ten) and one extra block floats at
`(0, 360)`. -/
def s5 : State :=
  { initState 0 with
    currentBlock := some tet5,
    blocks := rowCells ++ [mkCell 0 360 20] }

/-- A live O piece parked in the preview area (used as `nextBlock`). -/
def tetN : Tetro :=
  { cells := [mkCell 80 40 4, mkCell 80 60 5, mkCell 100 40 6, mkCell 100 60 7],
    originBlock := some (mkCell 80 60 5), collided := false, rotation := 0,
    shape := .O, seed := 0, blockStartCount := 4 }

/-- A state on which Hold succeeds: live current block, a preview block,
nothing held yet, `canHoldAgain` true. -/
def s9 : State :=
  { initState 0 with currentBlock := some tetI, nextBlock := some tetN, blockCount := 8 }

/-- The state after the successful Hold on `s9`. -/
def s9Held : State := (holdPerform s9).getD s9

/-- A live I piece resting directly on the floor (cells at `y = 380`). -/
def tetB : Tetro :=
  { cells := [mkCell 0 380 0, mkCell 20 380 1, mkCell 40 380 2, mkCell 60 380 3],
    originBlock := some (mkCell 20 380 1), collided := false, rotation := 0,
    shape := .I, seed := 0, blockStartCount := 0 }

/-- A state about to take a Collision event merging `tetB`. -/
def sB : State := { initState 0 with currentBlock := some tetB }

/-- The state after the Collision event on `sB`. -/
def sBres : State := (collisionDetection sB).getD sB

/-- The outcome of Rotate as the specification describes it: compute the
next rotation index, rotate naively around the pivot; commit it when all
cells pass the checks, otherwise apply the first wall-kick candidate (in
table order) whose shifted cells pass the checks, and reject the rotation
entirely when no candidate passes. -/
def rotateSpecResult (s : State) (cb : Tetro) (o : Cell) : State :=
  let naive := naiveRotatedCells cb o
  if cellsAdmissible s naive then
    { s with currentBlock := some { cb with
        rotation := nextRotationIdx cb,
        cells := naive,
        originBlock := naive.get? 1 } }
  else
    match ((PieceWallKickMap cb.shape).getD (nextRotationIdx cb) []).find?
        (fun p => decide (cellsAdmissible s (kickShift p naive))) with
    | none => s
    | some p =>
      { s with currentBlock := some { cb with
          rotation := nextRotationIdx cb,
          cells := kickShift p naive,
          originBlock := (kickShift p naive).get? 1 } }

/-! ## General lemmas about the list operations of the embedding -/

theorem length_filter_eq_length_iff {α : Type} {p : α → Bool} {l : List α} :
    (l.filter p).length = l.length ↔ ∀ a ∈ l, p a = true := by
  constructor
  · intro h
    exact List.filter_eq_self.mp ((l.filter_sublist).eq_of_length h)
  · intro h
    rw [List.filter_eq_self.mpr h]

theorem bne_length_filter_iff {α : Type} {p : α → Bool} {l : List α} :
    ((l.filter p).length != l.length) = true ↔ ∃ a ∈ l, ¬p a = true := by
  rw [bne_iff_ne, Ne, length_filter_eq_length_iff]
  push_neg
  exact Iff.rfl

theorem length_filter_pos_iff {α : Type} {p : α → Bool} {l : List α} :
    0 < (l.filter p).length ↔ ∃ a ∈ l, p a = true := by
  rw [List.length_pos, Ne, List.filter_eq_nil_iff]
  push_neg
  exact Iff.rfl

theorem length_filter_eq_zero_iff {α : Type} {p : α → Bool} {l : List α} :
    (l.filter p).length = 0 ↔ ∀ a ∈ l, ¬p a = true := by
  rw [List.length_eq_zero, List.filter_eq_nil_iff]

theorem head?_filter_eq_find? {α : Type} (p : α → Bool) (l : List α) :
    (l.filter p).head? = l.find? p := by
  induction l with
  | nil => rfl
  | cons a t ih =>
    by_cases h : p a = true
    · simp [List.filter_cons, List.find?_cons, h]
    · simp only [Bool.not_eq_true] at h
      simp [List.filter_cons, List.find?_cons, h, ih]

theorem mapIdxOpt_bind_some {α β γ : Type} (aux : List β) (f : α → β → γ) :
    ∀ (cells : List α) (i : Nat), i + cells.length ≤ aux.length →
    mapIdxOpt (fun j c => (aux.get? j).bind (fun b => some (f c b))) i cells
      = some (List.zipWith f cells (aux.drop i)) := by
  intro cells
  induction cells with
  | nil => intro i _; rfl
  | cons c cs ih =>
    intro i h
    have hi : i < aux.length := by simp at h; omega
    rw [List.drop_eq_getElem_cons hi]
    have hget : aux.get? i = some aux[i] := by
      rw [List.get?_eq_get hi, List.get_eq_getElem]
    have hrest := ih (i + 1) (by simp at h ⊢; omega)
    simp only [mapIdxOpt, hget, Option.some_bind, hrest, List.zipWith_cons_cons]

theorem map_posOf_zipWith_ghost :
    ∀ (cells gcells : List Cell),
    (List.zipWith (fun c gc => { c with x := gc.x, y := gc.y }) cells gcells).map posOf
      = (gcells.take cells.length).map posOf := by
  intro cells
  induction cells with
  | nil => intro gcells; simp
  | cons c cs ih =>
    intro gcells
    cases gcells with
    | nil => simp
    | cons g gs => simp [List.zipWith_cons_cons, ih, posOf]

/-! ## Characterizations of the spatial predicates -/

theorem hasBlocksAround_iff (cells : List Cell) (s : State) (offset : Int) (d : Dir) :
    hasBlocksAround cells s offset d = true ↔
      ∃ c ∈ cells, ∃ b ∈ s.blocks,
        (shiftCell d offset c).x = b.x ∧ (shiftCell d offset c).y = b.y := by
  unfold hasBlocksAround
  rw [bne_length_filter_iff]
  constructor
  · rintro ⟨c, hc, hp⟩
    refine ⟨c, hc, ?_⟩
    rw [Bool.not_eq_true, beq_eq_false_iff_ne, Ne] at hp
    rcases length_filter_pos_iff.mp (Nat.pos_of_ne_zero hp) with ⟨b, hb, hbeq⟩
    simp only [Bool.and_eq_true, beq_iff_eq] at hbeq
    refine ⟨b, hb, ?_, ?_⟩ <;> cases d <;> simp_all [shiftCell]
  · rintro ⟨c, hc, b, hb, hx, hy⟩
    refine ⟨c, hc, ?_⟩
    rw [Bool.not_eq_true, beq_eq_false_iff_ne, Ne]
    intro h0
    have hall := length_filter_eq_zero_iff.mp h0 b hb
    cases d <;> simp_all [shiftCell]

theorem hasBoundaryAround_x_iff (cells : List Cell) (s : State) (offset : Int) :
    hasBoundaryAround cells s offset .x = true ↔
      ∃ c ∈ cells, ¬(0 - blockWidth < c.x + offset ∧ c.x + offset < canvasWidth) := by
  unfold hasBoundaryAround
  rw [bne_length_filter_iff]
  constructor
  · rintro ⟨c, hc, hp⟩
    exact ⟨c, hc, by simpa using hp⟩
  · rintro ⟨c, hc, hp⟩
    exact ⟨c, hc, by simpa using hp⟩

theorem hasBoundaryAround_y_iff (cells : List Cell) (s : State) (offset : Int) :
    hasBoundaryAround cells s offset .y = true ↔
      ∃ c ∈ cells, ¬(c.y + offset < canvasHeight) := by
  unfold hasBoundaryAround
  rw [bne_length_filter_iff]
  constructor
  · rintro ⟨c, hc, hp⟩
    exact ⟨c, hc, by simpa using hp⟩
  · rintro ⟨c, hc, hp⟩
    exact ⟨c, hc, by simpa using hp⟩

/-! ## Claim theorems -/

/-- C8 (counterexample): the claim says the allowed region for the
shifted x coordinate is the half-open interval from `-cellWidth`
(inclusive) up to `canvasWidth`, so a cell whose shifted x equals exactly
`-cellWidth = -20` should not trigger the predicate; but on a cell at
`x = 0` shifted by `-20` the predicate returns `true` even though the
shifted coordinate lies inside the claimed interval. -/
theorem boundary_left_edge_mismatch :
    hasBoundaryAround [mkCell 0 0 0] (initState 0) (-20) .x = true
    ∧ ∀ c ∈ [mkCell 0 0 0],
        0 - blockWidth ≤ c.x + (-20) ∧ c.x + (-20) < canvasWidth := by decide

/-- C8 (amended): the out-of-bounds predicate is true exactly when some
cell shifted by the offset leaves the allowed region, which on the x axis
is the open interval from `-cellWidth` (exclusive) to `canvasWidth`
(exclusive), and on the y axis is bounded only by `y < canvasHeight`. -/
theorem hasBoundaryAround_characterization (cells : List Cell) (s : State) (offset : Int) :
    (hasBoundaryAround cells s offset .x = true ↔
      ∃ c ∈ cells, ¬(0 - blockWidth < c.x + offset ∧ c.x + offset < canvasWidth))
    ∧ (hasBoundaryAround cells s offset .y = true ↔
      ∃ c ∈ cells, ¬(c.y + offset < canvasHeight)) :=
  ⟨hasBoundaryAround_x_iff cells s offset, hasBoundaryAround_y_iff cells s offset⟩

/-- C3: replaying one fixed Action sequence from one fixed initial seed
is deterministic; the fold of `step` is a pure function of the seed and
the sequence, so the resulting snapshot, its `blocks`, its score and its
piece slots coincide between any two replays. -/
theorem run_replay_deterministic (seed : Int) (acts : List Action) :
    run acts (initState seed) = run acts (initState seed)
    ∧ (run acts (initState seed)).map State.blocks = (run acts (initState seed)).map State.blocks
    ∧ (run acts (initState seed)).map State.points = (run acts (initState seed)).map State.points
    ∧ (run acts (initState seed)).map State.currentBlock
        = (run acts (initState seed)).map State.currentBlock
    ∧ (run acts (initState seed)).map State.seed = (run acts (initState seed)).map State.seed :=
  ⟨rfl, rfl, rfl, rfl, rfl⟩

/-- C2 (counterexample): the Collision action dereferences the absent
`currentBlock` on the initial snapshot, so its transition is not defined
there. -/
theorem collision_undefined_on_initial : collisionDetection (initState 0) = none := rfl

/-- C2 (amended): on the initial snapshot (no current, next or ghost
block) Move, Rotate, Hold and Drop are defined and return the snapshot
unchanged, and Tick is defined; Collision, however, throws on any
snapshot without a current block, the initial one included, so not every
Action is a total function. -/
theorem actions_on_initial_snapshot (seed : Int) (d : Dir) (offset : Int) :
    movePerform d offset (initState seed) = initState seed
    ∧ rotatePerform (initState seed) = some (initState seed)
    ∧ holdPerform (initState seed) = some (initState seed)
    ∧ dropPerform (initState seed) = some (initState seed)
    ∧ (tickPerform (initState 0)).isSome = true
    ∧ collisionDetection (initState seed) = none :=
  ⟨rfl, rfl, rfl, rfl, by decide, rfl⟩

theorem dedupStep_mem {acc : List Cell} {c c2 : Cell} (h : c2 ∈ dedupStep acc c) :
    c2 ∈ acc ∨ c2 = c := by
  unfold dedupStep at h
  split at h
  · exact Or.inl h
  · rcases List.mem_append.mp h with h2 | h2
    · exact Or.inl h2
    · exact Or.inr (List.mem_singleton.mp h2)

theorem dedupStep_pairwise {acc : List Cell} {c : Cell}
    (h : acc.Pairwise (fun a b => a.y ≠ b.y)) :
    (dedupStep acc c).Pairwise (fun a b => a.y ≠ b.y) := by
  unfold dedupStep
  split
  · exact h
  case isFalse hnone =>
    rw [List.pairwise_append]
    refine ⟨h, List.pairwise_singleton _ _, ?_⟩
    intro a ha b hb
    rw [List.mem_singleton] at hb
    rw [hb]
    have h0 : ¬0 < (acc.filter (fun a2 => a2.y == c.y)).length :=
      fun hlt => hnone (decide_eq_true hlt)
    have hzero : (acc.filter (fun a2 => a2.y == c.y)).length = 0 :=
      Nat.eq_zero_of_not_pos h0
    have := length_filter_eq_zero_iff.mp hzero a ha
    simpa using this

theorem dedup_fold_mem :
    ∀ (l acc : List Cell) (c2 : Cell), c2 ∈ l.foldl dedupStep acc → c2 ∈ acc ∨ c2 ∈ l := by
  intro l
  induction l with
  | nil => intro acc c2 h; exact Or.inl h
  | cons a t ih =>
    intro acc c2 h
    rcases ih (dedupStep acc a) c2 h with h2 | h2
    · rcases dedupStep_mem h2 with h3 | h3
      · exact Or.inl h3
      · exact Or.inr (h3 ▸ List.mem_cons_self a t)
    · exact Or.inr (List.mem_cons_of_mem a h2)

theorem dedup_fold_pairwise :
    ∀ (l acc : List Cell), acc.Pairwise (fun a b => a.y ≠ b.y) →
    (l.foldl dedupStep acc).Pairwise (fun a b => a.y ≠ b.y) := by
  intro l
  induction l with
  | nil => intro acc h; exact h
  | cons a t ih => intro acc h; exact ih _ (dedupStep_pairwise h)

theorem dedupByY_subset {l : List Cell} {c : Cell} (h : c ∈ dedupByY l) : c ∈ l := by
  rcases dedup_fold_mem l [] c h with h2 | h2
  · cases h2
  · exact h2

theorem dedupByY_pairwise (l : List Cell) :
    (dedupByY l).Pairwise (fun a b => a.y ≠ b.y) :=
  dedup_fold_pairwise l [] List.Pairwise.nil

theorem length_filter_or_disjoint {α : Type} (p q : α → Bool)
    (h : ∀ a, ¬(p a = true ∧ q a = true)) :
    ∀ l : List α,
    (l.filter (fun a => p a || q a)).length = (l.filter p).length + (l.filter q).length := by
  intro l
  induction l with
  | nil => rfl
  | cons a t ih =>
    rcases hp : p a with _ | _ <;> rcases hq : q a with _ | _
    · simp [List.filter_cons, hp, hq, ih]
    · simp [List.filter_cons, hp, hq, ih]
      omega
    · simp [List.filter_cons, hp, hq, ih]
      omega
    · exact absurd ⟨hp, hq⟩ (h a)

theorem sum_map_const_nat {α : Type} (g : α → Nat) (n : Nat) :
    ∀ l : List α, (∀ a ∈ l, g a = n) → (l.map g).sum = n * l.length := by
  intro l
  induction l with
  | nil => intro _; simp
  | cons a t ih =>
    intro h
    have h1 := h a (List.mem_cons_self a t)
    have h2 := ih (fun b hb => h b (List.mem_cons_of_mem a hb))
    simp [h1, h2]
    ring

theorem blocksInFullLines_length (blocks : List Cell) :
    ∀ ys : List Cell, ys.Pairwise (fun a b => a.y ≠ b.y) →
    (blocksInFullLines blocks ys).length = (ys.map (fun a => countAtY blocks a.y)).sum := by
  intro ys
  induction ys with
  | nil =>
    intro _
    simp [blocksInFullLines]
  | cons a t ih =>
    intro hp
    have ha : ∀ b ∈ t, a.y ≠ b.y := (List.pairwise_cons.mp hp).1
    have ht := ih (List.pairwise_cons.mp hp).2
    unfold blocksInFullLines at ht ⊢
    have hpt : ∀ b ∈ blocks,
        (decide (0 < ((a :: t).filter (fun a2 => b.y == a2.y)).length))
          = ((b.y == a.y) || decide (0 < (t.filter (fun a2 => b.y == a2.y)).length)) := by
      intro b _
      rcases hba : (b.y == a.y) with _ | _
      · simp [List.filter_cons, hba]
      · simp [List.filter_cons, hba]
    rw [List.filter_congr hpt,
      length_filter_or_disjoint (fun b => b.y == a.y)
        (fun b => decide (0 < (t.filter (fun a2 => b.y == a2.y)).length)) ?hdisj blocks]
    · rw [ht]
      simp [countAtY]
    case hdisj =>
      rintro b ⟨h1, h2⟩
      rcases length_filter_pos_iff.mp (of_decide_eq_true h2) with ⟨a2, ha2, hbeq⟩
      exact ha a2 ha2 (by rw [← beq_iff_eq.mp h1, beq_iff_eq.mp hbeq])

/-- C5: when line-clear resolution fires on a collided block completing
`k ≥ 1` distinct full rows, points grow by exactly `100 * k`,
`lineClears` by exactly `k`, the level is recomputed as
`floor(lineClears / 10)` on the new total, `changeInLevel` holds exactly
when the level value changed, and `highscore` becomes the maximum of the
old highscore and the new points.  Here `k` is the number of distinct
rows of the collided block's cells in which the committed cells count
exactly `gridWidth = 10`. -/
theorem lineClear_scoring (s : State) (block : Tetro)
    (hcb : s.currentBlock = some block) (hcol : block.collided = true)
    (hk : 1 ≤ (dedupByY (fullLineCells s block)).length) :
    (lineClearCheck s).points
        = s.points + 100 * (dedupByY (fullLineCells s block)).length
    ∧ (lineClearCheck s).lineClears
        = s.lineClears + (dedupByY (fullLineCells s block)).length
    ∧ (lineClearCheck s).level
        = (s.lineClears + (dedupByY (fullLineCells s block)).length) / 10
    ∧ ((lineClearCheck s).changeInLevel = true ↔
        s.level ≠ (s.lineClears + (dedupByY (fullLineCells s block)).length) / 10)
    ∧ (lineClearCheck s).highscore
        = max s.highscore (s.points + 100 * (dedupByY (fullLineCells s block)).length) := by
  have hcount : ∀ a ∈ dedupByY (fullLineCells s block), countAtY s.blocks a.y = gridWidth := by
    intro a ha
    have hmem := dedupByY_subset ha
    have := (List.mem_filter.mp hmem).2
    exact beq_iff_eq.mp (by simpa using this)
  have hlen : (blocksInFullLines s.blocks (dedupByY (fullLineCells s block))).length
      = gridWidth * (dedupByY (fullLineCells s block)).length := by
    rw [blocksInFullLines_length s.blocks _ (dedupByY_pairwise _),
      sum_map_const_nat _ gridWidth _ hcount]
  have hdiv : (blocksInFullLines s.blocks (dedupByY (fullLineCells s block))).length / gridWidth
      = (dedupByY (fullLineCells s block)).length := by
    rw [hlen, Nat.mul_div_cancel_left _ (by decide : 0 < gridWidth)]
  have hne : ((blocksInFullLines s.blocks (dedupByY (fullLineCells s block))).length == 0)
      = false := by
    rw [hlen]
    have : gridWidth * (dedupByY (fullLineCells s block)).length ≠ 0 := by
      show (10 : Nat) * (dedupByY (fullLineCells s block)).length ≠ 0
      omega
    exact beq_eq_false_iff_ne.mpr this
  unfold lineClearCheck
  rw [hcb]
  simp only [hcol, Bool.not_true, Bool.false_eq_true, if_false, hne, hdiv]
  have hmax : ∀ a b : Nat, (if a < b then b else a) = max a b := by
    intro a b
    by_cases h : a < b
    · rw [if_pos h, Nat.max_eq_right (Nat.le_of_lt h)]
    · rw [if_neg h, Nat.max_eq_left (Nat.le_of_not_lt h)]
  refine ⟨by omega, trivial, trivial, ?_, ?_⟩
  · exact bne_iff_ne
  · rw [show 100 * (dedupByY (fullLineCells s block)).length
      = (dedupByY (fullLineCells s block)).length * 100 by ring]
    exact hmax _ _

/-- C5 (witness): on the concrete state `s5` one full row is cleared,
scoring 100 points and raising the highscore to 100. -/
theorem lineClear_scoring_witness :
    (lineClearCheck s5).points
        = s5.points + 100 * (dedupByY (fullLineCells s5 tet5)).length
    ∧ (lineClearCheck s5).highscore
        = max s5.highscore (s5.points + 100 * (dedupByY (fullLineCells s5 tet5)).length) :=
  (fun h => ⟨h.1, h.2.2.2.2⟩) (lineClear_scoring s5 tet5 rfl rfl (by decide))

theorem moveBlocked_iff (s : State) (d : Dir) (offset : Int) (cells : List Cell) :
    moveBlocked s d offset cells ↔
      (hasBlocksAround cells s offset d || hasBoundaryAround cells s offset d) = true := by
  unfold moveBlocked
  rw [Bool.or_eq_true, hasBlocksAround_iff]
  cases d
  case x =>
    rw [hasBoundaryAround_x_iff]
    constructor
    · rintro ⟨c, hc, h | h⟩
      · exact Or.inl ⟨c, hc, h⟩
      · exact Or.inr ⟨c, hc, by simpa [outsideBoundary] using h⟩
    · rintro (⟨c, hc, h⟩ | ⟨c, hc, h⟩)
      · exact ⟨c, hc, Or.inl h⟩
      · exact ⟨c, hc, Or.inr (by simpa [outsideBoundary] using h)⟩
  case y =>
    rw [hasBoundaryAround_y_iff]
    constructor
    · rintro ⟨c, hc, h | h⟩
      · exact Or.inl ⟨c, hc, h⟩
      · exact Or.inr ⟨c, hc, by simpa [outsideBoundary] using h⟩
    · rintro (⟨c, hc, h⟩ | ⟨c, hc, h⟩)
      · exact ⟨c, hc, Or.inl h⟩
      · exact ⟨c, hc, Or.inr (by simpa [outsideBoundary] using h)⟩

/-- C6 (counterexample): after Tick then Drop (from seed 0) the current
block has collided, its cells snapped to the ghost position while
`originBlock` stayed stale, and a subsequent `Move(x, -cellWidth)` is not
a no-op: it leaves the cells unchanged but rewrites
`currentBlock.originBlock` to the cell of index 1. -/
theorem move_on_settled_not_noop :
    ((run [.tick 0, .drop] (initState 0)).map (fun s =>
      s.currentBlock.map Tetro.collided)) = some (some true)
    ∧ ((run [.tick 0, .drop] (initState 0)).map (fun s =>
      decide (movePerform Dir.x (0 - blockWidth) s = s))) = some false
    ∧ ((run [.tick 0, .drop] (initState 0)).map (fun s =>
      decide ((movePerform Dir.x (0 - blockWidth) s).currentBlock.map Tetro.cells
        = s.currentBlock.map Tetro.cells))) = some true := by decide

/-- C6 (amended): Move is atomic all-or-nothing.  With no current block
it returns the state unchanged; with a collided current block it leaves
the cells unchanged but still rewrites `currentBlock.originBlock` to the
cell of index 1 (so it is a full no-op only when the pivot already sits
there, which Drop-settled pieces violate); with a live current block it
leaves the cells unchanged when any one shifted cell would land on an
occupied position or outside the boundary, and otherwise shifts every
cell by the offset and recomputes the pivot; in particular a
`Move(x, -cellWidth)` with the leftmost cell at the minimum boundary
`x = 0` leaves the cells unchanged. -/
theorem move_atomic (s : State) (d : Dir) (offset : Int) :
    (s.currentBlock = none → movePerform d offset s = s)
    ∧ (∀ cb : Tetro, s.currentBlock = some cb → cb.collided = true →
        movePerform d offset s
          = { s with currentBlock := some { cb with originBlock := cb.cells.get? 1 } })
    ∧ (∀ cb : Tetro, s.currentBlock = some cb → cb.collided = false →
        (moveBlocked s d offset cb.cells →
          movePerform d offset s
            = { s with currentBlock := some { cb with originBlock := cb.cells.get? 1 } })
        ∧ (¬moveBlocked s d offset cb.cells →
          movePerform d offset s
            = { s with currentBlock := some { cb with
                cells := cb.cells.map (shiftCell d offset),
                originBlock := (cb.cells.map (shiftCell d offset)).get? 1 } }))
    ∧ (∀ cb : Tetro, s.currentBlock = some cb → cb.collided = false →
        (∃ c ∈ cb.cells, c.x = 0 ∧ ∀ c2 ∈ cb.cells, c.x ≤ c2.x) →
        movePerform Dir.x (0 - blockWidth) s
          = { s with currentBlock := some { cb with originBlock := cb.cells.get? 1 } }) := by
  have blockedGen : ∀ (d2 : Dir) (off2 : Int) (cb : Tetro), s.currentBlock = some cb →
      cb.collided = false → moveBlocked s d2 off2 cb.cells →
      movePerform d2 off2 s
        = { s with currentBlock := some { cb with originBlock := cb.cells.get? 1 } } := by
    intro d2 off2 cb hcb hcol hblk
    have hb := (moveBlocked_iff s d2 off2 cb.cells).mp hblk
    unfold movePerform
    rw [hcb]
    cases d2
    case x =>
      unfold boundaryX
      rw [hcb]
      simp only [hcol, Bool.false_eq_true, if_false, hb, if_true]
    case y =>
      unfold boundaryY
      rw [hcb]
      simp only [hcol, Bool.false_eq_true, if_false, hb, if_true]
  refine ⟨?_, ?_, ?_, ?_⟩
  · intro h
    unfold movePerform
    rw [h]
  · intro cb hcb hcol
    unfold movePerform
    rw [hcb]
    have hres : ∀ cells2 : List Cell, cells2 = cb.cells →
        ({ s with
            currentBlock := some
              { cb with
                cells := cells2,
                originBlock := cells2.get? 1 } } : State)
          = { s with currentBlock := some { cb with originBlock := cb.cells.get? 1 } } := by
      intro cells2 h2
      subst h2
      rfl
    cases d
    case x =>
      apply hres
      unfold boundaryX
      rw [hcb]
      simp [hcol]
    case y =>
      apply hres
      unfold boundaryY
      rw [hcb]
      simp [hcol]
  · intro cb hcb hcol
    refine ⟨blockedGen d offset cb hcb hcol, ?_⟩
    intro hnb
    have hb : (hasBlocksAround cb.cells s offset d || hasBoundaryAround cb.cells s offset d)
        = false := by
      cases hq : (hasBlocksAround cb.cells s offset d || hasBoundaryAround cb.cells s offset d)
      · rfl
      · exact absurd ((moveBlocked_iff s d offset cb.cells).mpr hq) hnb
    unfold movePerform
    rw [hcb]
    cases d
    case x =>
      unfold boundaryX
      rw [hcb]
      simp only [hcol, Bool.false_eq_true, if_false, hb]
      rfl
    case y =>
      unfold boundaryY
      rw [hcb]
      simp only [hcol, Bool.false_eq_true, if_false, hb]
      rfl
  · rintro cb hcb hcol ⟨c, hc, hx0, -⟩
    apply blockedGen Dir.x (0 - blockWidth) cb hcb hcol
    refine ⟨c, hc, Or.inr ?_⟩
    unfold outsideBoundary
    rintro ⟨h1, -⟩
    rw [hx0] at h1
    simp [blockWidth] at h1

/-- C6 (witness): on the concrete state `s6`, whose live I piece has its
leftmost cell at `x = 0`, `Move(x, -20)` leaves the cells unchanged. -/
theorem move_atomic_witness :
    movePerform Dir.x (0 - blockWidth) s6
      = { s6 with currentBlock := some { tetI with originBlock := tetI.cells.get? 1 } } :=
  (move_atomic s6 Dir.x (0 - blockWidth)).2.2.2 tetI rfl rfl
    ⟨mkCell 0 100 0, by decide, by decide, by decide⟩

theorem get?_eq_getD_of_lt {α : Type} (l : List α) (i : Nat) (d : α) (h : i < l.length) :
    l.get? i = some (l.getD i d) := by
  rw [List.get?_eq_get h, List.get_eq_getElem, List.getD_eq_getElem?_getD,
    List.getElem?_eq_getElem h]
  rfl

theorem startPos_length_pos (sh : ShapeLetters) : 0 < (TetroStartPosMap sh).length := by
  cases sh <;> decide

theorem startPos_row_length (sh : ShapeLetters) :
    ∀ row ∈ TetroStartPosMap sh, row.length = 4 := by
  cases sh <;> decide

theorem rotRow_length (sh : ShapeLetters) (r : Nat) (h : r < (TetroStartPosMap sh).length) :
    ((TetroStartPosMap sh).getD r []).length = 4 := by
  apply startPos_row_length sh
  have := get?_eq_getD_of_lt (TetroStartPosMap sh) r [] h
  exact List.get?_mem this

theorem kick_length_eq (sh : ShapeLetters) :
    (PieceWallKickMap sh).length = (TetroStartPosMap sh).length := by
  cases sh <;> decide

theorem not_bool_eq_decide {b : Bool} {P : Prop} [Decidable P] (h : (b = false) ↔ P) :
    (!b) = decide P := by
  cases b
  · simp [h.mp rfl]
  · have hnp : ¬P := fun hp => by cases h.mpr hp
    simp [hnp]

theorem not_checkAll_iff (s : State) (cells : List Cell) :
    ((hasBlocksAround cells s 0 .x || hasBoundaryAround cells s 0 .x ||
      hasBoundaryAround cells s 0 .y) = false) ↔ cellsAdmissible s cells := by
  rw [Bool.or_eq_false_iff, Bool.or_eq_false_iff]
  constructor
  · rintro ⟨⟨hA, hBx⟩, hBy⟩
    have hA2 : ¬(hasBlocksAround cells s 0 .x = true) := by rw [hA]; simp
    rw [hasBlocksAround_iff] at hA2
    push_neg at hA2
    have hBx2 : ¬(hasBoundaryAround cells s 0 .x = true) := by rw [hBx]; simp
    rw [hasBoundaryAround_x_iff] at hBx2
    push_neg at hBx2
    have hBy2 : ¬(hasBoundaryAround cells s 0 .y = true) := by rw [hBy]; simp
    rw [hasBoundaryAround_y_iff] at hBy2
    push_neg at hBy2
    intro c hc
    refine ⟨?_, ?_, ?_⟩
    · rintro b hb ⟨h1, h2⟩
      have := hA2 c hc b hb
      simp [shiftCell] at this
      exact this h1.symm h2.symm
    · have := hBx2 c hc
      simpa using this
    · have := hBy2 c hc
      simpa using this
  · intro hadm
    refine ⟨⟨?_, ?_⟩, ?_⟩
    · apply Bool.eq_false_iff.mpr
      intro h
      rcases (hasBlocksAround_iff cells s 0 .x).mp h with ⟨c, hc, b, hb, h1, h2⟩
      simp [shiftCell] at h1 h2
      exact (hadm c hc).1 b hb ⟨h1.symm, h2.symm⟩
    · apply Bool.eq_false_iff.mpr
      intro h
      rcases (hasBoundaryAround_x_iff cells s 0).mp h with ⟨c, hc, hout⟩
      exact hout (by simpa using (hadm c hc).2.1)
    · apply Bool.eq_false_iff.mpr
      intro h
      rcases (hasBoundaryAround_y_iff cells s 0).mp h with ⟨c, hc, hout⟩
      exact hout (by simpa using (hadm c hc).2.2)

/-- C7: Rotate computes the next rotation index as
`(rotation + 1) mod numRotations(shape)`; it commits the naive rotation
when its cells pass the occupancy and boundary checks, otherwise applies
the first wall-kick candidate of the shape's table row (in table order)
whose shifted cells pass both checks, adding the candidate's x offset to
cell x and the negated y offset to cell y; if no candidate passes the
state is returned unchanged, and Rotate is a no-op when there is no
current block. -/
theorem rotate_spec (s : State) :
    (s.currentBlock = none → rotatePerform s = some s)
    ∧ (∀ (cb : Tetro) (o : Cell), s.currentBlock = some cb → cb.originBlock = some o →
        cb.rotation < (TetroStartPosMap cb.shape).length → cb.cells.length = 4 →
        rotatePerform s = some (rotateSpecResult s cb o)) := by
  constructor
  · intro h
    unfold rotatePerform
    rw [h]
  · intro cb o hcb horig hrot hlen4
    have hposlen := startPos_length_pos cb.shape
    have hnext : (cb.rotation + 1) % (TetroStartPosMap cb.shape).length
        < (TetroStartPosMap cb.shape).length := Nat.mod_lt _ hposlen
    have hrm := get?_eq_getD_of_lt (TetroStartPosMap cb.shape)
      ((cb.rotation + 1) % (TetroStartPosMap cb.shape).length) [] hnext
    have hprev := get?_eq_getD_of_lt (TetroStartPosMap cb.shape) cb.rotation [] hrot
    have hprevlen := rotRow_length cb.shape cb.rotation hrot
    have hpp := get?_eq_getD_of_lt ((TetroStartPosMap cb.shape).getD cb.rotation [])
      1 (⟨0, 0⟩ : Pos) (by rw [hprevlen]; omega)
    have hrmlen := rotRow_length cb.shape
      ((cb.rotation + 1) % (TetroStartPosMap cb.shape).length) hnext
    have hkick := get?_eq_getD_of_lt (PieceWallKickMap cb.shape)
      ((cb.rotation + 1) % (TetroStartPosMap cb.shape).length) []
      (by rw [kick_length_eq]; exact hnext)
    unfold rotatePerform
    rw [hcb]
    simp only [hrm, hprev, hpp, horig, Option.some_bind]
    rw [mapIdxOpt_bind_some
      ((TetroStartPosMap cb.shape).getD
        ((cb.rotation + 1) % (TetroStartPosMap cb.shape).length) [])
      (fun c br => createBlock
        (o.x + (br.x + (0 - (((TetroStartPosMap cb.shape).getD cb.rotation []).getD 1
          ⟨0, 0⟩).x)) * blockWidth)
        (o.y + (br.y + (0 - (((TetroStartPosMap cb.shape).getD cb.rotation []).getD 1
          ⟨0, 0⟩).y)) * blockHeight)
        c.id c.color)
      cb.cells 0 (by rw [hlen4, hrmlen])]
    simp only [Option.some_bind, List.drop_zero]
    unfold rotateSpecResult
    simp only [naiveRotatedCells, nextRotationIdx, kickShift]
    set naive : List Cell := List.zipWith
      (fun c p => createBlock
        (o.x + (p.x + (0 - (((TetroStartPosMap cb.shape).getD cb.rotation []).getD 1
          ⟨0, 0⟩).x)) * blockWidth)
        (o.y + (p.y + (0 - (((TetroStartPosMap cb.shape).getD cb.rotation []).getD 1
          ⟨0, 0⟩).y)) * blockHeight)
        c.id c.color)
      cb.cells
      ((TetroStartPosMap cb.shape).getD
        ((cb.rotation + 1) % (TetroStartPosMap cb.shape).length) []) with hnaive
    set kicks : List Pos := (PieceWallKickMap cb.shape).getD
      ((cb.rotation + 1) % (TetroStartPosMap cb.shape).length) [] with hkicks
    by_cases hadm : cellsAdmissible s naive
    · have hc := (not_checkAll_iff s naive).mpr hadm
      rw [hc, if_pos hadm]
      rfl
    · have hcne : ¬((hasBlocksAround naive s 0 Dir.x || hasBoundaryAround naive s 0 Dir.x ||
          hasBoundaryAround naive s 0 Dir.y) = false) :=
        fun hq => hadm ((not_checkAll_iff s naive).mp hq)
      have hc : (hasBlocksAround naive s 0 Dir.x || hasBoundaryAround naive s 0 Dir.x ||
          hasBoundaryAround naive s 0 Dir.y) = true := by
        cases hq : (hasBlocksAround naive s 0 Dir.x || hasBoundaryAround naive s 0 Dir.x ||
            hasBoundaryAround naive s 0 Dir.y)
        · exact absurd hq hcne
        · rfl
      rw [hc, if_neg hadm]
      simp only [Bool.not_true, Bool.false_eq_true, if_false, hkick, Option.some_bind]
      rw [List.filter_congr (fun (p : Pos) (_ : p ∈ kicks) =>
        not_bool_eq_decide (not_checkAll_iff s (naive.map (fun c =>
          { c with x := c.x + p.x * blockWidth, y := c.y + (0 - p.y) * blockHeight }))))]
      cases hfind : kicks.find? (fun p => decide (cellsAdmissible s (naive.map (fun c =>
          { c with x := c.x + p.x * blockWidth,
                   y := c.y + (0 - p.y) * blockHeight })))) with
      | none =>
        have hnil : kicks.filter (fun p => decide (cellsAdmissible s (naive.map (fun c =>
            { c with x := c.x + p.x * blockWidth,
                     y := c.y + (0 - p.y) * blockHeight })))) = [] :=
          List.head?_eq_none_iff.mp (by rw [head?_filter_eq_find?, hfind])
        rw [hnil]
      | some p =>
        have hh : (kicks.filter (fun p => decide (cellsAdmissible s (naive.map (fun c =>
            { c with x := c.x + p.x * blockWidth,
                     y := c.y + (0 - p.y) * blockHeight }))))).head? = some p := by
          rw [head?_filter_eq_find?, hfind]
        cases hfl : kicks.filter (fun p => decide (cellsAdmissible s (naive.map (fun c =>
            { c with x := c.x + p.x * blockWidth,
                     y := c.y + (0 - p.y) * blockHeight })))) with
        | nil => rw [hfl] at hh; cases hh
        | cons q tl =>
          rw [hfl] at hh
          injection hh with hq
          subst hq
          rfl

/-- C7 (witness): rotating the live I piece of `s6` succeeds and matches
the specification-side outcome. -/
theorem rotate_spec_witness :
    rotatePerform s6 = some (rotateSpecResult s6 tetI (mkCell 20 100 1)) :=
  (rotate_spec s6).2 tetI (mkCell 20 100 1) rfl rfl (by decide) rfl

theorem mapIdxOpt_ghost_pos :
    ∀ (cells : List Cell) (i : Nat) (dc : List Cell) (aux : List Cell),
    mapIdxOpt (fun j c => (aux.get? j).bind (fun gc =>
      some { c with x := gc.x, y := gc.y })) i cells = some dc →
    dc.map posOf = ((aux.drop i).take cells.length).map posOf := by
  intro cells
  induction cells with
  | nil =>
    intro i dc aux h
    simp only [mapIdxOpt, Option.some_inj] at h
    subst h
    simp
  | cons c cs ih =>
    intro i dc aux h
    simp only [mapIdxOpt] at h
    cases hg : aux.get? i with
    | none => rw [hg] at h; cases h
    | some gc =>
      rw [hg] at h
      simp only [Option.some_bind] at h
      cases hrest : mapIdxOpt (fun j c => (aux.get? j).bind (fun gc =>
          some { c with x := gc.x, y := gc.y })) (i + 1) cs with
      | none => rw [hrest] at h; cases h
      | some tl =>
        rw [hrest] at h
        rw [Option.some_inj] at h
        subst h
        have htl := ih (i + 1) tl aux hrest
        have hi : i < aux.length := by
          rcases List.get?_eq_some.mp hg with ⟨hlt, _⟩
          exact hlt
        have hgi : aux[i] = gc := by
          rw [List.get?_eq_get hi, List.get_eq_getElem, Option.some_inj] at hg
          exact hg
        rw [List.drop_eq_getElem_cons hi, hgi]
        simp only [List.length_cons, List.take_succ_cons, List.map_cons, htl]
        rfl

set_option maxRecDepth 4000 in
/-- C1 (counterexample): the trace Tick, 18 soft drops, Collision,
Collision (from seed 0) runs without error and produces a state whose
`blocks` contains two cells at the same position: the second Collision
re-merges the already-settled current block. -/
theorem collision_twice_duplicates :
    (run cexActs (initState 0)).map (fun st => decide (PosNodup st.blocks))
      = some false := by decide

/-- C1 (amended): duplicate-freedom of `blocks` is not invariant under
arbitrary Action sequences, but each single merge event preserves it:
when `blocks` is duplicate-free and the current block's cells are
duplicate-free and position-disjoint from `blocks`, any Collision result
has duplicate-free `blocks`; and when additionally the ghost cells (the
target positions written by Drop) are duplicate-free and disjoint from
`blocks`, any Drop result has duplicate-free `blocks`. -/
theorem merge_event_preserves_nodup (s : State) (cb : Tetro)
    (hcb : s.currentBlock = some cb)
    (hnd : PosNodup s.blocks)
    (hcnd : PosNodup cb.cells)
    (hdisj : PosDisjoint cb.cells s.blocks) :
    (∀ s2 : State, collisionDetection s = some s2 → PosNodup s2.blocks)
    ∧ (∀ (g : Tetro) (s2 : State), s.ghostBlock = some g → PosNodup g.cells →
        PosDisjoint g.cells s.blocks → cb.collided = false →
        dropPerform s = some s2 → PosNodup s2.blocks) := by
  constructor
  · intro s2 h
    unfold collisionDetection at h
    rw [hcb] at h
    rw [Option.some_inj] at h
    subst h
    cases hcond : collisionCond s cb
    · simpa [hcond] using hnd
    · simp only [hcond, if_true]
      unfold PosNodup
      rw [List.map_append, List.nodup_append]
      exact ⟨hnd, hcnd, (List.disjoint_symm hdisj)⟩
  · intro g s2 hg hgnd hgdisj hcol hdrop
    unfold dropPerform at hdrop
    rw [hcb] at hdrop
    simp only [hcol, Bool.false_eq_true, if_false, hg, Option.some_bind,
      Option.bind_eq_some] at hdrop
    obtain ⟨dc, hmap, hdrop⟩ := hdrop
    rw [Option.some_inj] at hdrop
    subst hdrop
    have hdcpos := mapIdxOpt_ghost_pos cb.cells 0 dc g.cells hmap
    rw [List.drop_zero] at hdcpos
    show ((s.blocks ++ dc).map posOf).Nodup
    rw [List.map_append, List.nodup_append]
    refine ⟨hnd, ?_, ?_⟩
    · rw [hdcpos, List.map_take]
      exact (List.take_sublist _ _).nodup hgnd
    · intro p hp hp2
      rw [hdcpos, List.map_take] at hp2
      exact hgdisj (List.take_subset _ _ hp2) hp

/-- C1 (amended, witness): the Collision event on the concrete state `sB`
merges a fresh disjoint block and keeps `blocks` duplicate-free. -/
theorem merge_event_preserves_nodup_witness : PosNodup sBres.blocks := by
  obtain ⟨w, hw⟩ := Option.isSome_iff_exists.mp
    (by decide : (collisionDetection sB).isSome = true)
  have hsome : collisionDetection sB = some sBres := by rw [sBres, hw]; rfl
  exact (merge_event_preserves_nodup sB tetB rfl (by decide) (by decide)
    (by decide)).1 sBres hsome

/-- C9: `canHoldAgain` is true in the initial state; a Collision event
(its collision condition holding) sets it to true and a non-event leaves
it unchanged; a Drop on a live block sets it to true; a successful Hold
sets it to false, after which a second Hold returns the state unchanged
(`canHoldAgain` stays false); any Hold requested while `canHoldAgain` is
false returns the state unchanged. -/
theorem hold_gating :
    (∀ seed : Int, (initState seed).canHoldAgain = true)
    ∧ (∀ (s s' : State) (cb : Tetro), s.currentBlock = some cb →
        collisionDetection s = some s' →
        (collisionCond s cb = true → s'.canHoldAgain = true)
        ∧ (collisionCond s cb = false → s'.canHoldAgain = s.canHoldAgain))
    ∧ (∀ (s s' : State) (cb : Tetro), s.currentBlock = some cb → cb.collided = false →
        dropPerform s = some s' → s'.canHoldAgain = true)
    ∧ (∀ (s s' : State) (cb : Tetro), s.currentBlock = some cb → cb.collided = false →
        s.canHoldAgain = true → holdPerform s = some s' →
        s'.canHoldAgain = false ∧ holdPerform s' = some s')
    ∧ (∀ s : State, s.canHoldAgain = false → holdPerform s = some s) := by
  have noopWhenUsed : ∀ s : State, s.canHoldAgain = false → holdPerform s = some s := by
    intro s hcan
    unfold holdPerform
    match hcb : s.currentBlock with
    | none => rfl
    | some cb => rw [hcan]; simp
  refine ⟨fun _ => rfl, ?_, ?_, ?_, noopWhenUsed⟩
  · intro s s' cb hcb hdet
    unfold collisionDetection at hdet
    rw [hcb] at hdet
    rw [Option.some_inj] at hdet
    subst hdet
    cases h : collisionCond s cb <;> simp [h]
  · intro s s' cb hcb hcol hdrop
    unfold dropPerform at hdrop
    rw [hcb] at hdrop
    simp only [hcol, Bool.false_eq_true, if_false, Option.bind_eq_some] at hdrop
    obtain ⟨dc, _, hdrop⟩ := hdrop
    rw [Option.some_inj] at hdrop
    subst hdrop
    rfl
  · intro s s' cb hcb hcol hcan hhold
    have hfalse : s'.canHoldAgain = false := by
      unfold holdPerform at hhold
      rw [hcb] at hhold
      simp only [hcol, hcan, Bool.false_or, Bool.not_true, Bool.false_eq_true, if_false,
        Option.bind_eq_some] at hhold
      obtain ⟨cbNew, _, hhold⟩ := hhold
      obtain ⟨nbNew, _, hhold⟩ := hhold
      obtain ⟨hbNew, _, hhold⟩ := hhold
      rw [Option.some_inj] at hhold
      subst hhold
      rfl
    exact ⟨hfalse, noopWhenUsed s' hfalse⟩

/-- C9 (witness): on the concrete state `s9` the first Hold succeeds and
clears `canHoldAgain`, and the second Hold is a no-op. -/
theorem hold_gating_witness :
    s9Held.canHoldAgain = false ∧ holdPerform s9Held = some s9Held := by
  obtain ⟨w, hw⟩ := Option.isSome_iff_exists.mp
    (by decide : (holdPerform s9).isSome = true)
  have h9 : holdPerform s9 = some s9Held := by rw [s9Held, hw]; rfl
  exact hold_gating.2.2.2.1 s9 s9Held tetI rfl rfl rfl h9

/-- C10: Rotate's only no-op guard is the absence of a current block: on
the state `s10`, whose current block has `collided = true` and whose four
cells are already merged into `blocks`, Rotate succeeds through the
wall-kick `(0, -2)` and returns a current block with different cells. -/
theorem rotate_moves_settled_piece :
    tetT.collided = true
    ∧ (∀ c ∈ tetT.cells, c ∈ s10.blocks)
    ∧ (rotatePerform s10).map (fun st => st.currentBlock.map Tetro.cells)
        = some (some tetTRotated)
    ∧ tetTRotated ≠ tetT.cells := by decide

end Tetris
